import Mathlib

/-!
Shallow embedding of the `interact` library (`src/interact.py`): the
deadline-bounded buffered reader (`Interact.read_until`, `Interact.expect`,
`Interact.read_all`) and the backend write/close operations
(`SocketBackend`, `ProcessBackend`).

Bytes are modelled as `List Nat`; the monotonic clock `time.monotonic` is
modelled as a script `clock : Nat → Int` consumed one value per `_time()`
call; the backend `read` is modelled as a script `reads : Nat → ReadResult`
consumed one event per call, each event being a data chunk, an `EOFError`
or a `TimeoutError`.  Loops take a fuel parameter and report `fuelOut`
when it runs out, so nothing about termination is baked in.
-/

/-- A Python exception relevant to the embedded code paths. -/
inductive Exc where
  | eofError
  | timeoutError
  | nameError
  | osError
deriving DecidableEq

/-- Result of one call to `backend.read`: a returned byte chunk, or a raised
`EOFError`, or a raised `TimeoutError`. -/
inductive ReadResult where
  | chunk (bs : List Nat)
  | eofExc
  | timeoutExc
deriving DecidableEq

/-- The ambient execution environment of one `Interact` call: the successive
values returned by `_time()` and the successive outcomes of `backend.read`. -/
structure Env where
  clock : Nat → Int
  reads : Nat → ReadResult

/-- Python truthiness of an optional float (`None` and `0.0` are falsy). -/
def truthy : Option Int → Bool
  | none => false
  | some q => q != 0

/-- Python `buf.find(pat)`: the least index at which `pat` occurs in `buf`
(`some i`), or `none` when `pat` does not occur (Python returns `-1`).
The empty pattern occurs at index 0. -/
def bytesFind (buf pat : List Nat) : Option Nat :=
  if pat.isPrefixOf buf then some 0
  else
    match buf with
    | [] => none
    | _ :: rest => (bytesFind rest pat).map (· + 1)

/-- Outcome of a reader call: a normal return value, a propagated
exception, or fuel exhaustion of the model. -/
inductive RUResult where
  | ret (bs : List Nat)
  | exc (e : Exc)
  | fuelOut
deriving DecidableEq

/-- Observable result of a `read_until` call: the outcome, the Reader's
final buffer, and the list of timeout arguments passed to the successive
`backend.read` calls. -/
structure RUOut where
  res : RUResult
  buffer : List Nat
  log : List (Option Int)
deriving DecidableEq

/-- The `while` loop of `Interact.read_until` (src/interact.py lines
155-169).  `timeout` and `deadline` are the current values of the Python
locals; `tIdx` and `rIdx` index the clock and read scripts; `log` records
the timeout argument of each `backend.read` performed so far. -/
def readUntilLoop (env : Env) (pat : List Nat) :
    Nat → Option Int → Option Int → List Nat → Nat → Nat → List (Option Int) → RUOut
  | 0, _, _, buf, _, _, log => ⟨.fuelOut, buf, log⟩
  | fuel + 1, timeout, deadline, buf, tIdx, rIdx, log =>
    if truthy deadline = true ∧ deadline.getD 0 < env.clock tIdx then
      ⟨.ret [], buf, log⟩
    else
      let tIdx1 := if truthy deadline then tIdx + 1 else tIdx
      match bytesFind buf pat with
      | some i => ⟨.ret (buf.take (i + pat.length)), buf.drop (i + pat.length), log⟩
      | none =>
        let tm2 := if truthy timeout then some (env.clock tIdx1) else timeout
        let dl2 := if truthy timeout then some (env.clock tIdx1) else deadline
        let tIdx2 := if truthy timeout then tIdx1 + 1 else tIdx1
        match env.reads rIdx with
        | .chunk bs =>
            readUntilLoop env pat fuel tm2 dl2 (buf ++ bs) tIdx2 (rIdx + 1) (log ++ [tm2])
        | .eofExc => ⟨.exc .eofError, buf, log ++ [tm2]⟩
        | .timeoutExc => ⟨.exc .timeoutError, buf, log ++ [tm2]⟩

/-- `Interact.read_until(match, timeout)` (src/interact.py lines 150-169):
`deadline = None; if timeout: deadline = _time() + timeout`, then the scan
loop.  The entry `_time()` call consumes clock index 0 when `timeout` is
truthy. -/
def read_until (env : Env) (pat : List Nat) (timeout : Option Int)
    (buf : List Nat) (fuel : Nat) : RUOut :=
  if truthy timeout then
    readUntilLoop env pat fuel timeout (some (env.clock 0 + timeout.getD 0)) buf 1 0 []
  else
    readUntilLoop env pat fuel timeout none buf 0 0 []

/-- A caller-supplied pattern for `expect`: `p buf` models
`p.search(buf)`, returning `some e` with `e` the match's `end()` when the
regex matches somewhere in `buf`, and `none` otherwise. -/
def RePattern : Type := List Nat → Option Nat

/-- The `for i in indices: m = options[i].search(self.buffer)` scan of
`Interact.expect` (src/interact.py lines 190-196): the first (lowest)
index whose pattern matches, with the match end, in list order. -/
def firstMatch (options : List RePattern) (buf : List Nat) : Option (Nat × Nat) :=
  match options with
  | [] => none
  | p :: rest =>
    match p buf with
    | some e => some (0, e)
    | none => (firstMatch rest buf).map (fun q => (q.1 + 1, q.2))

/-- Outcome of an `expect` call: the returned triple `(index, match-end,
text)`, a propagated exception, or fuel exhaustion. -/
inductive ExpResult where
  | ret (i : Int) (m : Option Nat) (text : List Nat)
  | exc (e : Exc)
  | fuelOut
deriving DecidableEq

/-- Observable result of an `expect` call: outcome, final buffer, and the
timeout arguments passed to the successive `backend.read` calls. -/
structure ExpOut where
  res : ExpResult
  buffer : List Nat
  log : List (Option Int)
deriving DecidableEq

/-- The `while` loop of `Interact.expect` (src/interact.py lines 189-203).
`text` is the Python local of that name: `none` means it is still unbound,
so evaluating the sentinel `return (-1, None, text)` raises `NameError`
(UnboundLocalError); it is assigned only in the branch that returns
`(i, m, text)` immediately. -/
def expectLoop (env : Env) (options : List RePattern) :
    Nat → Option Int → Option Int → List Nat → Option (List Nat) → Nat → Nat →
      List (Option Int) → ExpOut
  | 0, _, _, buf, _, _, _, log => ⟨.fuelOut, buf, log⟩
  | fuel + 1, timeout, deadline, buf, text, tIdx, rIdx, log =>
    if truthy deadline = true ∧ deadline.getD 0 < env.clock tIdx then
      match text with
      | none => ⟨.exc .nameError, buf, log⟩
      | some t => ⟨.ret (-1) none t, buf, log⟩
    else
      let tIdx1 := if truthy deadline then tIdx + 1 else tIdx
      match firstMatch options buf with
      | some q => ⟨.ret q.1 (some q.2) (buf.take q.2), buf.drop q.2, log⟩
      | none =>
        let tm2 := if truthy timeout then some (env.clock tIdx1) else timeout
        let dl2 := if truthy timeout then some (env.clock tIdx1) else deadline
        let tIdx2 := if truthy timeout then tIdx1 + 1 else tIdx1
        match env.reads rIdx with
        | .chunk bs =>
            expectLoop env options fuel tm2 dl2 (buf ++ bs) text tIdx2 (rIdx + 1)
              (log ++ [tm2])
        | .eofExc => ⟨.exc .eofError, buf, log ++ [tm2]⟩
        | .timeoutExc => ⟨.exc .timeoutError, buf, log ++ [tm2]⟩

/-- `Interact.expect(options, timeout)` (src/interact.py lines 182-203). -/
def expect (env : Env) (options : List RePattern) (timeout : Option Int)
    (buf : List Nat) (fuel : Nat) : ExpOut :=
  if truthy timeout then
    expectLoop env options fuel timeout (some (env.clock 0 + timeout.getD 0)) buf none 1 0 []
  else
    expectLoop env options fuel timeout none buf none 0 0 []

/-- Observable result of a `read_all` call: outcome, final buffer, and the
number of `backend.read` calls performed. -/
structure RAOut where
  res : RUResult
  buffer : List Nat
  nreads : Nat
deriving DecidableEq

/-- The drain loop of `Interact.read_all` (src/interact.py lines 171-180):
`backend.read()` is called with no timeout until it raises `EOFError`,
which is caught; the accumulated buffer is returned and cleared.  A
`TimeoutError` is not caught and propagates. -/
def readAllLoop (env : Env) : Nat → List Nat → Nat → RAOut
  | 0, buf, rIdx => ⟨.fuelOut, buf, rIdx⟩
  | fuel + 1, buf, rIdx =>
    match env.reads rIdx with
    | .chunk bs => readAllLoop env fuel (buf ++ bs) (rIdx + 1)
    | .eofExc => ⟨.ret buf, [], rIdx + 1⟩
    | .timeoutExc => ⟨.exc .timeoutError, buf, rIdx + 1⟩

/-- `Interact.read_all()` (src/interact.py lines 171-180). -/
def read_all (env : Env) (buf : List Nat) (fuel : Nat) : RAOut :=
  readAllLoop env fuel buf 0

/-- What `SocketBackend.read(timeout)` does (src/interact.py lines 42-59),
as a function of the situation at the call: whether `self.socket` is still
set, whether `select(timeout)` reports readiness before `timeout` elapses,
and what `recv` would return (empty means the peer closed). -/
structure SockReadInput where
  socketOpen : Bool
  selectReady : Bool
  recvData : List Nat

/-- `SocketBackend.read` (src/interact.py lines 42-59): raises `EOFError`
on a closed socket, raises `TimeoutError` when a truthy timeout elapses
with no readiness, raises `EOFError` on an empty `recv`, and otherwise
returns the received bytes.  A falsy timeout (`None` or `0`) skips the
select entirely and blocks in `recv`. -/
def socketRead (inp : SockReadInput) (timeout : Option Int) : ReadResult :=
  if inp.socketOpen = false then .eofExc
  else if truthy timeout = true ∧ inp.selectReady = false then .timeoutExc
  else if inp.recvData.isEmpty then .eofExc
  else .chunk inp.recvData

/-- Observable outcome of a backend `write`: the exception propagated to
the caller (if any) and whether the failure was logged. -/
structure WriteOut where
  exc : Option Exc
  warned : Bool
deriving DecidableEq

/-- `SocketBackend.write` (src/interact.py lines 61-66): `sendall` inside
`try`, bare `except` logs "write failed!" and swallows the exception.
`sendExc` is the exception the underlying `sendall` raises, if any. -/
def SocketBackend_write (sendExc : Option Exc) : WriteOut :=
  match sendExc with
  | none => ⟨none, false⟩
  | some _ => ⟨none, true⟩

/-- `ProcessBackend.write` (src/interact.py lines 115-121): `stdin.write`
inside `try`, bare `except` logs "write failed!" and then re-raises
(`raise` on line 121). -/
def ProcessBackend_write (sendExc : Option Exc) : WriteOut :=
  match sendExc with
  | none => ⟨none, false⟩
  | some e => ⟨some e, true⟩

/-- `SocketBackend.close` (src/interact.py lines 36-40): `if self.socket:
self.socket.close(); self.socket = None`.  The state is `some h` while the
socket object is set and `none` after; the Bool reports whether the OS
`close()` was invoked by this call. -/
def SocketBackend_close (socket : Option Nat) : Option Nat × Bool :=
  match socket with
  | some _ => (none, true)
  | none => (none, false)

/-- `ProcessBackend.close` (src/interact.py lines 87-91): `if self.process:
self.process.terminate(); self.process = None`.  The Bool reports whether
`terminate()` was invoked by this call. -/
def ProcessBackend_close (process : Option Nat) : Option Nat × Bool :=
  match process with
  | some _ => (none, true)
  | none => (none, false)

/-- A monotonic clock advancing by one unit per `_time()` call, starting
at 100. -/
def clockSeq : Nat → Int := fun n => 100 + n

/-- Environment: advancing clock, every backend read returns chunk `[5]`. -/
def envChunk5 : Env := ⟨clockSeq, fun _ => .chunk [5]⟩

/-- Environment: advancing clock, every backend read returns chunk `[97]`. -/
def envChunk97 : Env := ⟨clockSeq, fun _ => .chunk [97]⟩

/-- Environment: clock stuck at 100, every backend read raises
`TimeoutError`. -/
def envTimeoutAt100 : Env := ⟨fun _ => 100, fun _ => .timeoutExc⟩

/-- Environment: clock stuck at 0, every backend read raises `EOFError`. -/
def envQuiet : Env := ⟨fun _ => 0, fun _ => .eofExc⟩

/-- Environment: the source delivers `b"EN"` then `b"D!"` (chunks
straddling the pattern `b"END"`). -/
def envStraddle : Env :=
  ⟨fun _ => 0, fun k => if k = 0 then .chunk [69, 78] else .chunk [68, 33]⟩

/-- Environment: the source yields `b"a"`, `b"b"`, `b"c"` and then
signals end-of-stream. -/
def envABC : Env :=
  ⟨fun _ => 0, fun k => if k < 3 then .chunk [97 + k] else .eofExc⟩

theorem bytesFind_first_occ (pat : List Nat) :
    ∀ (buf : List Nat) (k : Nat), pat.isPrefixOf (buf.drop k) = true →
    ∃ i, bytesFind buf pat = some i ∧ pat.isPrefixOf (buf.drop i) = true ∧
      ∀ j, j < i → pat.isPrefixOf (buf.drop j) = false := by
  intro buf
  induction buf with
  | nil =>
    intro k hk
    simp only [List.drop_nil] at hk
    refine ⟨0, ?_, by simpa using hk, by omega⟩
    simp [bytesFind, hk]
  | cons b rest ih =>
    intro k hk
    by_cases h0 : pat.isPrefixOf (b :: rest) = true
    · exact ⟨0, by simp [bytesFind, h0], by simpa using h0, by omega⟩
    · match k with
      | 0 => exact absurd (by simpa using hk) h0
      | k' + 1 =>
        obtain ⟨i', hfind, hpre, hmin⟩ := ih k' (by simpa using hk)
        refine ⟨i' + 1, ?_, by simpa using hpre, ?_⟩
        · simp [bytesFind, h0, hfind]
        · intro j hj
          match j with
          | 0 => simpa using (Bool.not_eq_true _).mp h0
          | j' + 1 => exact (by simpa using hmin j' (by omega))

theorem firstMatch_eq_none (options : List RePattern) (B : List Nat) :
    firstMatch options B = none → ∀ p ∈ options, p B = none := by
  induction options with
  | nil => simp
  | cons p rest ih =>
    intro h q hq
    cases hpB : p B with
    | some e => simp [firstMatch, hpB] at h
    | none =>
      simp only [firstMatch, hpB, Option.map_eq_none'] at h
      rcases List.mem_cons.mp hq with rfl | hq'
      · exact hpB
      · exact ih h q hq'

theorem firstMatch_eq_some (B : List Nat) :
    ∀ (options : List RePattern) (k e : Nat), firstMatch options B = some (k, e) →
    ∃ p, options.get? k = some p ∧ p B = some e ∧
      ∀ l q, l < k → options.get? l = some q → q B = none := by
  intro options
  induction options with
  | nil => simp [firstMatch]
  | cons p rest ih =>
    intro k e h
    cases hpB : p B with
    | some e' =>
      simp only [firstMatch, hpB, Option.some.injEq, Prod.mk.injEq] at h
      obtain ⟨hk, he⟩ := h
      subst hk; subst he
      exact ⟨p, by simp, hpB, by omega⟩
    | none =>
      simp only [firstMatch, hpB, Option.map_eq_some'] at h
      obtain ⟨⟨k', e''⟩, hfm, hpair⟩ := h
      simp only [Prod.mk.injEq] at hpair
      obtain ⟨hk, he⟩ := hpair
      subst he
      obtain ⟨q, hq, hqB, hmin⟩ := ih k' e'' hfm
      refine ⟨q, ?_, hqB, ?_⟩
      · rw [← hk]; simpa using hq
      · intro l r hl hr
        match l with
        | 0 =>
          simp only [List.get?_cons_zero, Option.some.injEq] at hr
          rw [← hr]; exact hpB
        | l' + 1 =>
          exact hmin l' r (by omega) (by simpa using hr)

/-- C1: if the pattern already occurs in the buffered bytes, `read_until`
returns the prefix of the buffer ending at (and including) the first
occurrence of the pattern, leaves exactly the suffix after that occurrence
buffered, and performs no backend read.  The clock hypothesis says the
deadline derived from a truthy timeout has not already passed at the first
loop check. -/
theorem c1_read_until_first_occurrence (env : Env) (pat B : List Nat)
    (timeout : Option Int) (fuel : Nat) (hf : 1 ≤ fuel)
    (hocc : ∃ k, pat.isPrefixOf (B.drop k) = true)
    (hclk : truthy timeout = true → env.clock 1 ≤ env.clock 0 + timeout.getD 0) :
    ∃ i, bytesFind B pat = some i ∧ pat.isPrefixOf (B.drop i) = true ∧
      (∀ j, j < i → pat.isPrefixOf (B.drop j) = false) ∧
      read_until env pat timeout B fuel =
        ⟨.ret (B.take (i + pat.length)), B.drop (i + pat.length), []⟩ := by
  obtain ⟨k, hk⟩ := hocc
  obtain ⟨i, hfind, hpre, hmin⟩ := bytesFind_first_occ pat B k hk
  refine ⟨i, hfind, hpre, hmin, ?_⟩
  obtain ⟨f, rfl⟩ : ∃ f, fuel = f + 1 := ⟨fuel - 1, by omega⟩
  unfold read_until
  by_cases ht : truthy timeout = true
  · simp only [ht, if_true]
    unfold readUntilLoop
    rw [if_neg]
    · simp [hfind]
    · rintro ⟨hd, hlt⟩
      simp only [Option.getD_some] at hlt
      exact absurd (hclk ht) (not_le.mpr hlt)
  · simp only [Bool.not_eq_true] at ht
    simp only [ht, Bool.false_eq_true, if_false]
    unfold readUntilLoop
    rw [if_neg]
    · simp [hfind]
    · rintro ⟨hd, -⟩
      simp [truthy] at hd

/-- Witness for C1: the pattern `[1]` occurs in `[0, 1, 2]` at index 1;
`read_until` returns `[0, 1]`, leaves `[2]` buffered, reads nothing. -/
theorem c1_witness :
    ∃ i, bytesFind [0, 1, 2] [1] = some i ∧
      List.isPrefixOf [1] (List.drop i [0, 1, 2]) = true ∧
      (∀ j, j < i → List.isPrefixOf [1] (List.drop j [0, 1, 2]) = false) ∧
      read_until envQuiet [1] (some 5) [0, 1, 2] 1 =
        ⟨.ret (List.take (i + 1) [0, 1, 2]), List.drop (i + 1) [0, 1, 2], []⟩ :=
  c1_read_until_first_occurrence envQuiet [1] [0, 1, 2] (some 5) 1 (by decide)
    ⟨1, by decide⟩ (by decide)

/-- C2: when at least two distinct patterns in the option list match the
current buffer, `expect` returns the lowest-indexed matching pattern
(patterns are tried in list order, first match wins), never a best match
by length or earliest buffer position, consuming up to that pattern's
match end and performing no backend read. -/
theorem c2_expect_lowest_index (env : Env) (options : List RePattern)
    (timeout : Option Int) (B : List Nat) (fuel : Nat) (hf : 1 ≤ fuel)
    (hclk : truthy timeout = true → env.clock 1 ≤ env.clock 0 + timeout.getD 0)
    (i j : Nat) (pi pj : RePattern) (hij : i ≠ j)
    (hi : options.get? i = some pi) (hmi : pi B ≠ none)
    (hj : options.get? j = some pj) (hmj : pj B ≠ none) :
    ∃ k e p, options.get? k = some p ∧ p B = some e ∧
      (∀ l q, l < k → options.get? l = some q → q B = none) ∧
      expect env options timeout B fuel =
        ⟨.ret (k : Int) (some e) (B.take e), B.drop e, []⟩ := by
  have hfm : firstMatch options B ≠ none := by
    intro hnone
    exact hmi (firstMatch_eq_none options B hnone pi (List.get?_mem hi))
  obtain ⟨⟨k, e⟩, hsome⟩ := Option.ne_none_iff_exists'.mp hfm
  obtain ⟨p, hp, hpB, hmin⟩ := firstMatch_eq_some B options k e hsome
  refine ⟨k, e, p, hp, hpB, hmin, ?_⟩
  obtain ⟨f, rfl⟩ : ∃ f, fuel = f + 1 := ⟨fuel - 1, by omega⟩
  unfold expect
  by_cases ht : truthy timeout = true
  · simp only [ht, if_true]
    unfold expectLoop
    rw [if_neg]
    · simp [hsome]
    · rintro ⟨hd, hlt⟩
      simp only [Option.getD_some] at hlt
      exact absurd (hclk ht) (not_le.mpr hlt)
  · simp only [Bool.not_eq_true] at ht
    simp only [ht, Bool.false_eq_true, if_false]
    unfold expectLoop
    rw [if_neg]
    · simp [hsome]
    · rintro ⟨hd, -⟩
      simp [truthy] at hd

/-- Witness for C2: patterns `[no-match, end-2, end-1]` against buffer
`[10, 20, 30]`; index 1 wins (lowest matching index), not index 2 whose
match ends earlier. -/
theorem c2_witness :
    ∃ k e p,
      ([fun _ => none, fun _ => some 2, fun _ => some 1] : List RePattern).get? k =
        some p ∧
      p [10, 20, 30] = some e ∧
      (∀ l q, l < k →
        ([fun _ => none, fun _ => some 2, fun _ => some 1] : List RePattern).get? l =
          some q → q [10, 20, 30] = none) ∧
      expect envQuiet
          ([fun _ => none, fun _ => some 2, fun _ => some 1] : List RePattern)
          none [10, 20, 30] 1 =
        ⟨.ret (k : Int) (some e) (List.take e [10, 20, 30]),
         List.drop e [10, 20, 30], []⟩ :=
  c2_expect_lowest_index envQuiet
    ([fun _ => none, fun _ => some 2, fun _ => some 1] : List RePattern) none
    [10, 20, 30] 1 (by decide) (by decide) 1 2 (fun _ => some 2) (fun _ => some 1)
    (by decide) rfl (by simp) rfl (by simp)

/-- C3 (code evaluated at the failing input): `read_until(b"x", 5)` with an
empty buffer, entry clock 100 (so the entry deadline is 105), and one data
chunk arriving.  The single backend read is passed the timeout argument
`102` — the absolute monotonic clock value produced by the retry line
`timeout = deadline = _time()` — and not `max 0 (105 - 102) = 3`, the
remaining time until the entry deadline; and the loop then exits at clock
103, before the entry deadline 105, because that same line reassigned the
deadline to 102. -/
theorem c3_deadline_reassigned_eval :
    read_until envChunk5 [120] (some 5) [] 2 = ⟨.ret [], [5], [some 102]⟩ ∧
    (102 : Int) ≠ max 0 (105 - 102) ∧ (103 : Int) ≤ 105 := by decide

/-- C4 counterexample: a `read_until` call with timeout 5 whose pattern
never arrives: the backend read is passed the (reassigned) timeout 100,
its select elapses with no data, and the resulting `TimeoutError`
propagates out of `read_until` instead of the sentinel `b""` being
returned.  The second conjunct checks that `SocketBackend.read` does raise
`TimeoutError` in exactly that situation (open socket, truthy timeout, no
readiness). -/
theorem c4_counterexample_timeout_escapes :
    read_until envTimeoutAt100 [120] (some 5) [] 2 =
      ⟨.exc .timeoutError, [], [some 100]⟩ ∧
    socketRead ⟨true, false, []⟩ (some 100) = .timeoutExc := by decide

/-- C4 amended: when deadline expiry is detected by the retry loop's own
check (`_time() <= deadline` fails), `read_until` returns the sentinel
`b""` without raising and performs no further backend read; exceptions
escape only when raised by a backend read inside the loop. -/
theorem c4_amended_sentinel_on_loop_check (env : Env) (pat : List Nat)
    (fuel : Nat) (timeout deadline : Option Int) (buf : List Nat)
    (tIdx rIdx : Nat) (log : List (Option Int)) (hf : 1 ≤ fuel)
    (hd : truthy deadline = true) (hlt : deadline.getD 0 < env.clock tIdx) :
    readUntilLoop env pat fuel timeout deadline buf tIdx rIdx log =
      ⟨.ret [], buf, log⟩ := by
  obtain ⟨f, rfl⟩ : ∃ f, fuel = f + 1 := ⟨fuel - 1, by omega⟩
  unfold readUntilLoop
  rw [if_pos ⟨hd, hlt⟩]

/-- Witness for C4 amended: deadline 5 already passed at clock 100; the
loop returns `b""` leaving buffer and read log untouched. -/
theorem c4_amended_witness :
    readUntilLoop envChunk5 [120] 1 (some 5) (some 5) [7] 0 0 [] =
      ⟨.ret [], [7], []⟩ :=
  c4_amended_sentinel_on_loop_check envChunk5 [120] 1 (some 5) (some 5) [7] 0 0 []
    (by decide) (by decide) (by decide)

/-- C5 (code evaluated at the failing input): `expect([p], 1)` where `p`
never matches, entry clock 100 (deadline 101), one chunk `b"a"` arriving:
when the deadline check fails on the retry, the sentinel
`return (-1, None, text)` is evaluated with the local `text` never having
been assigned, so the call raises `NameError` (UnboundLocalError) instead
of returning `(-1, None, text)`. -/
theorem c5_expect_sentinel_name_error :
    expect envChunk97 ([fun _ => none] : List RePattern) (some 1) [] 2 =
      ⟨.exc .nameError, [97], [some 102]⟩ := by decide

theorem readUntilLoop_notimeout_step (env : Env) (pat : List Nat) (f : Nat)
    (buf : List Nat) (tIdx rIdx : Nat) (log : List (Option Int)) (bs : List Nat)
    (hfind : bytesFind buf pat = none) (hr : env.reads rIdx = .chunk bs) :
    readUntilLoop env pat (f + 1) none none buf tIdx rIdx log =
      readUntilLoop env pat f none none (buf ++ bs) tIdx (rIdx + 1)
        (log ++ [none]) := by
  conv_lhs => unfold readUntilLoop
  rw [if_neg (by rintro ⟨hd, -⟩; simp [truthy] at hd)]
  simp [truthy, hfind, hr]

theorem readUntilLoop_notimeout_found (env : Env) (pat : List Nat) (f : Nat)
    (buf : List Nat) (tIdx rIdx : Nat) (log : List (Option Int)) (i : Nat)
    (hfind : bytesFind buf pat = some i) :
    readUntilLoop env pat (f + 1) none none buf tIdx rIdx log =
      ⟨.ret (buf.take (i + pat.length)), buf.drop (i + pat.length), log⟩ := by
  unfold readUntilLoop
  rw [if_neg (by rintro ⟨hd, -⟩; simp [truthy] at hd)]
  simp [hfind]

/-- C6: a pattern straddling a chunk boundary.  If the pattern occurs
neither in the initial buffer nor after the first arriving chunk, but does
occur once the second chunk has arrived, then `read_until` with no timeout
returns the prefix of the accumulated buffer ending at that first
occurrence as soon as the second chunk arrives (exactly two backend reads,
each with timeout `None`), leaving the suffix buffered — each retry
re-scans the whole accumulated buffer from the start. -/
theorem c6_read_until_chunk_straddle (env : Env) (pat b0 c1 c2 : List Nat)
    (fuel : Nat) (hf : 3 ≤ fuel)
    (h0 : bytesFind b0 pat = none) (h1 : bytesFind (b0 ++ c1) pat = none)
    (hr0 : env.reads 0 = .chunk c1) (hr1 : env.reads 1 = .chunk c2)
    (i : Nat) (hocc : bytesFind ((b0 ++ c1) ++ c2) pat = some i) :
    read_until env pat none b0 fuel =
      ⟨.ret (((b0 ++ c1) ++ c2).take (i + pat.length)),
       ((b0 ++ c1) ++ c2).drop (i + pat.length), [none, none]⟩ := by
  obtain ⟨f, rfl⟩ : ∃ f, fuel = f + 3 := ⟨fuel - 3, by omega⟩
  have e3 : f + 3 = (f + 2) + 1 := rfl
  have e2 : f + 2 = (f + 1) + 1 := rfl
  unfold read_until
  rw [if_neg (by simp [truthy])]
  rw [e3, readUntilLoop_notimeout_step env pat (f + 2) b0 0 0 [] c1 h0 hr0]
  rw [e2, readUntilLoop_notimeout_step env pat (f + 1) (b0 ++ c1) 0 (0 + 1)
    ([] ++ [none]) c2 h1 hr1]
  rw [readUntilLoop_notimeout_found env pat f ((b0 ++ c1) ++ c2) 0 (0 + 1 + 1)
    (([] ++ [none]) ++ [none]) i hocc]
  rfl

/-- Witness for C6: pattern `b"END"` (`[69, 78, 68]`), chunks `b"EN"` then
`b"D!"`: the call returns `b"END"` and leaves `b"!"` buffered after two
reads. -/
theorem c6_witness :
    read_until envStraddle [69, 78, 68] none [] 3 =
      ⟨.ret (List.take (0 + 3) (([] ++ [69, 78]) ++ [68, 33])),
       List.drop (0 + 3) (([] ++ [69, 78]) ++ [68, 33]), [none, none]⟩ :=
  c6_read_until_chunk_straddle envStraddle [69, 78, 68] [] [69, 78] [68, 33] 3
    (by decide) (by decide) (by decide) (by decide) (by decide) 0 (by decide)

theorem readAllLoop_drain (env : Env) :
    ∀ (cs : List (List Nat)) (b0 : List Nat) (rIdx fuel : Nat),
    cs.length + 1 ≤ fuel →
    (∀ k, k < cs.length → env.reads (rIdx + k) = .chunk (cs.getD k [])) →
    env.reads (rIdx + cs.length) = .eofExc →
    readAllLoop env fuel b0 rIdx =
      ⟨.ret (b0 ++ cs.flatten), [], rIdx + cs.length + 1⟩ := by
  intro cs
  induction cs with
  | nil =>
    intro b0 rIdx fuel hf _ he
    obtain ⟨f, rfl⟩ : ∃ f, fuel = f + 1 := ⟨fuel - 1, by omega⟩
    unfold readAllLoop
    simp only [List.length_nil, Nat.add_zero] at he
    simp [he]
  | cons c cs ih =>
    intro b0 rIdx fuel hf hc he
    obtain ⟨f, rfl⟩ : ∃ f, fuel = f + 1 :=
      ⟨fuel - 1, by simp only [List.length_cons] at hf; omega⟩
    have h0 : env.reads rIdx = .chunk c := by simpa using hc 0 (by simp)
    have hstep : readAllLoop env (f + 1) b0 rIdx =
        readAllLoop env f (b0 ++ c) (rIdx + 1) := by
      conv_lhs => unfold readAllLoop
      rw [h0]
    rw [hstep]
    rw [ih (b0 ++ c) (rIdx + 1) f (by simp only [List.length_cons] at hf; omega)
      (fun k hk => by
        have := hc (k + 1) (by simp only [List.length_cons]; omega)
        simpa [Nat.add_assoc, Nat.add_comm 1 k] using this)
      (by
        have hlen : rIdx + 1 + cs.length = rIdx + (c :: cs).length := by
          simp only [List.length_cons]; omega
        rw [hlen]; exact he)]
    simp only [List.flatten_cons, List.length_cons, RAOut.mk.injEq]
    exact ⟨by simp [List.append_assoc], trivial, by omega⟩

/-- C7: when the source yields the chunks `cs` and then signals
end-of-stream, `read_all` returns the concatenation of the previously
buffered bytes with all newly read bytes, leaves the Reader's buffer
empty, and terminates normally (the `EOFError` is caught, not
propagated). -/
theorem c7_read_all_drains (env : Env) (cs : List (List Nat)) (b0 : List Nat)
    (fuel : Nat) (hf : cs.length + 1 ≤ fuel)
    (hc : ∀ k, k < cs.length → env.reads k = .chunk (cs.getD k []))
    (he : env.reads cs.length = .eofExc) :
    read_all env b0 fuel = ⟨.ret (b0 ++ cs.flatten), [], cs.length + 1⟩ := by
  have h := readAllLoop_drain env cs b0 0 fuel hf
    (fun k hk => by simpa using hc k hk) (by simpa using he)
  simpa [read_all] using h

/-- Witness for C7: the source yields `b"a"`, `b"b"`, `b"c"` then EOF;
`read_all` on an empty buffer returns `b"abc"` (`[97, 98, 99]`) with the
buffer left empty. -/
theorem c7_witness :
    read_all envABC [] 4 =
      ⟨.ret ([] ++ ([[97], [98], [99]] : List (List Nat)).flatten), [],
       ([[97], [98], [99]] : List (List Nat)).length + 1⟩ :=
  c7_read_all_drains envABC [[97], [98], [99]] [] 4 (by decide) (by decide)
    (by decide)

/-- C8 counterexample: a failing send in `ProcessBackend.write` is NOT
swallowed — the exception propagates to the caller (the bare `except`
block on src/interact.py lines 119-121 logs and then re-raises). -/
theorem c8_counterexample_process_write_raises :
    (ProcessBackend_write (some Exc.osError)).exc = some Exc.osError ∧
    (ProcessBackend_write (some Exc.osError)).exc ≠ none := by decide

/-- C8 amended: `SocketBackend.write` logs and swallows a failing send,
returning normally; `ProcessBackend.write` logs the failure but re-raises
it, so for the process variant the exception does propagate to the
caller.  Successful sends return normally on both backends. -/
theorem c8_amended_write_policy (e : Exc) :
    SocketBackend_write (some e) = ⟨none, true⟩ ∧
    SocketBackend_write none = ⟨none, false⟩ ∧
    ProcessBackend_write (some e) = ⟨some e, true⟩ ∧
    ProcessBackend_write none = ⟨none, false⟩ := by
  cases e <;> simp [SocketBackend_write, ProcessBackend_write]

/-- C9: double close is a no-op on both backends: after a first `close`
the handle is `None`, so a second `close` raises nothing, issues no OS
close/terminate call, and leaves the state exactly as the first call left
it. -/
theorem c9_close_idempotent (s p : Option Nat) :
    SocketBackend_close (SocketBackend_close s).1 =
      ((SocketBackend_close s).1, false) ∧
    ProcessBackend_close (ProcessBackend_close p).1 =
      ((ProcessBackend_close p).1, false) := by
  cases s <;> cases p <;> simp [SocketBackend_close, ProcessBackend_close]

/-- C10: `read_until` with the empty pattern returns `b""` at once for
every buffer content and timeout — the empty pattern is found at index 0
(`bytesFind B [] = some 0`) — leaving the buffer unchanged and performing
no backend read; this successful-match result coincides with the timeout
no-match sentinel `b""`. -/
theorem c10_read_until_empty_pattern (env : Env) (timeout : Option Int)
    (B : List Nat) (fuel : Nat) (hf : 1 ≤ fuel) :
    bytesFind B [] = some 0 ∧
    read_until env [] timeout B fuel = ⟨.ret [], B, []⟩ := by
  have hfind : bytesFind B [] = some 0 := by
    unfold bytesFind
    rw [if_pos (by cases B <;> simp [List.isPrefixOf])]
  refine ⟨hfind, ?_⟩
  obtain ⟨f, rfl⟩ : ∃ f, fuel = f + 1 := ⟨fuel - 1, by omega⟩
  unfold read_until
  by_cases ht : truthy timeout = true
  · simp only [ht, if_true]
    unfold readUntilLoop
    by_cases hc : truthy (some (env.clock 0 + timeout.getD 0)) = true ∧
        (some (env.clock 0 + timeout.getD 0)).getD 0 < env.clock 1
    · rw [if_pos hc]
    · rw [if_neg hc]
      simp [hfind]
  · simp only [Bool.not_eq_true] at ht
    simp only [ht, Bool.false_eq_true, if_false]
    unfold readUntilLoop
    rw [if_neg (by rintro ⟨hd, -⟩; simp [truthy] at hd)]
    simp [hfind]

/-- Witness for C10: empty pattern on buffer `[3, 4]` with timeout 7:
returns `b""`, buffer unchanged, no reads. -/
theorem c10_witness :
    bytesFind [3, 4] [] = some 0 ∧
    read_until envQuiet [] (some 7) [3, 4] 1 = ⟨.ret [], [3, 4], []⟩ :=
  c10_read_until_empty_pattern envQuiet (some 7) [3, 4] 1 (by decide)
